import Mathlib

/-!
Shallow embedding of the admission-control core of the MirrorView backend:
the fixed-window rate limiter (`backend/app/security.py`) and the request
body-limit / security-header middleware (`backend/app/main.py`), together
with theorems settling the specification claims about them.

Machine integers are modelled as `Nat`/`Int`; the Python `dict` of counter
buckets is modelled as an insertion-ordered association list with unique
keys reachable from the operations below, matching dict semantics for
lookup, assignment, size and deletion.
-/

namespace MirrorView

/-- One rate-limit rule (`RateLimitRule` in `security.py`): `limit`
admissions per window of `window_seconds` seconds. -/
structure RateLimitRule where
  limit : Nat
  window_seconds : Nat
deriving DecidableEq, Repr

/-- A counter-bucket key `(key, scope, window_seconds, window_start)`,
exactly the tuple used in `InMemoryRateLimitStore.hit`. -/
abbrev Bucket := String × String × Nat × Nat

/-- The store's counter table `self._counts : dict[bucket, int]`, as an
insertion-ordered association list. -/
abbrev Store := List (Bucket × Nat)

/-- `self._counts.get(bucket)` returning `none` when absent: first entry
whose key matches (dict keys are unique, so this is dict lookup). -/
def lookupCount : Store → Bucket → Option Nat
  | [], _ => none
  | p :: tl, b => if p.1 = b then some p.2 else lookupCount tl b

/-- `self._counts.get(bucket, 0)`. -/
def getCount (st : Store) (b : Bucket) : Nat :=
  (lookupCount st b).getD 0

/-- `self._counts[bucket] = v`: replace in place when the key is present,
append otherwise (Python dicts keep insertion order). -/
def setCount : Store → Bucket → Nat → Store
  | [], b, v => [(b, v)]
  | p :: tl, b, v => if p.1 = b then (b, v) :: tl else p :: setCount tl b v

/-- The eviction threshold hard-coded in `_cleanup_if_needed` (`10_000`). -/
def CLEANUP_THRESHOLD : Nat := 10000

/-- A bucket is stale at time `now` when its window has fully elapsed:
`bucket[3] + bucket[2] <= now_i`, i.e. `window_start + window_seconds ≤ now`. -/
def staleBucket (b : Bucket) (now : Nat) : Bool :=
  decide (b.2.2.2 + b.2.2.1 ≤ now)

/-- `InMemoryRateLimitStore._cleanup_if_needed`: sweep stale buckets, but
only once the table has at least `CLEANUP_THRESHOLD` entries. -/
def cleanupIfNeeded (st : Store) (now : Nat) : Store :=
  if st.length < CLEANUP_THRESHOLD then st
  else st.filter (fun p => !staleBucket p.1 now)

/-- `window_start = int(now // rule.window_seconds) * rule.window_seconds`. -/
def windowStart (now w : Nat) : Nat := now / w * w

/-- The bucket a `hit` call charges. -/
def bucketOf (key scope : String) (rule : RateLimitRule) (now : Nat) : Bucket :=
  (key, scope, rule.window_seconds, windowStart now rule.window_seconds)

/-- `InMemoryRateLimitStore.hit`: returns `(admitted, retry_after)` and the
updated table. When the bucket count has reached the limit the call denies
with `max(retry_after, 1)` and leaves the table untouched; otherwise it
increments the bucket and runs the conditional sweep. -/
def hit (st : Store) (key scope : String) (rule : RateLimitRule) (now : Nat) :
    (Bool × Nat) × Store :=
  let ws := windowStart now rule.window_seconds
  let b : Bucket := (key, scope, rule.window_seconds, ws)
  let count := getCount st b
  if rule.limit ≤ count then
    ((false, Nat.max ((ws + rule.window_seconds) - now) 1), st)
  else
    ((true, 0), cleanupIfNeeded (setCount st b (count + 1)) now)

/-- The per-scope policy table (`EndpointRateLimiter._policy`):
`self._policy.get(scope)` yields `none` when the scope is absent. -/
abbrev Policy := String → Option (List RateLimitRule)

/-- The `for rule in rules` loop body of `EndpointRateLimiter.check`:
thread the store through `hit` for every rule, collecting the
`retry_after` of each denying rule (in order). -/
def checkLoop (key scope : String) (now : Nat) :
    Store → List RateLimitRule → List Nat → Store × List Nat
  | st, [], acc => (st, acc)
  | st, r :: rs, acc =>
    let res := hit st key scope r now
    checkLoop key scope now res.2 rs (if res.1.1 then acc else acc ++ [res.1.2])

/-- The return step of `EndpointRateLimiter.check`: deny with
`max(retry_after_values)` when any rule denied, admit otherwise. -/
def checkFinish (res : Store × List Nat) : (Bool × Nat) × Store :=
  if res.2.isEmpty then ((true, 0), res.1)
  else ((false, res.2.foldl Nat.max 0), res.1)

/-- `EndpointRateLimiter.check`: admit unconditionally when the scope has
no rules (`if not rules` covers an absent scope and an empty rule tuple),
otherwise evaluate every rule and combine the outcomes. -/
def check (policy : Policy) (st : Store) (scope clientKey : String) (now : Nat) :
    (Bool × Nat) × Store :=
  match policy scope with
  | none => ((true, 0), st)
  | some rules =>
    if rules.isEmpty then ((true, 0), st)
    else checkFinish (checkLoop clientKey scope now st rules [])

/-- The sequence of per-rule `hit` outcomes produced by one `check` call:
the `(admitted, retry_after)` pair of every rule in order, plus the final
store. Used to state what `check` computes. -/
def runRules (key scope : String) (now : Nat) :
    Store → List RateLimitRule → List (Bool × Nat) × Store
  | st, [] => ([], st)
  | st, r :: rs =>
    let res := hit st key scope r now
    let rest := runRules key scope now res.2 rs
    (res.1 :: rest.1, rest.2)

/-- One store-level `hit` invocation, for stating properties of call
sequences against the store. -/
structure HitCall where
  key : String
  scope : String
  rule : RateLimitRule
  now : Nat
deriving DecidableEq, Repr

/-- Run a sequence of `hit` calls against the store, returning the list of
admission flags and the final store. -/
def runHits : Store → List HitCall → List Bool × Store
  | st, [] => ([], st)
  | st, c :: cs =>
    let res := hit st c.key c.scope c.rule c.now
    let rest := runHits res.2 cs
    (res.1.1 :: rest.1, rest.2)

/-! ### Rate-limit policy parsing (`_parse_rules` in `security.py`) -/

/-- `_LIMIT_UNIT_SECONDS`: seconds per named unit. -/
def LIMIT_UNIT_SECONDS (u : String) : Option Nat :=
  if u = "second" then some 1
  else if u = "minute" then some 60
  else if u = "hour" then some 3600
  else none

/-- ASCII whitespace, for Python `str.strip()`. -/
def pyWhitespace (c : Char) : Bool :=
  c = ' ' || c = Char.ofNat 9 || c = Char.ofNat 10 || c = Char.ofNat 13 ||
    c = Char.ofNat 11 || c = Char.ofNat 12

def stripChars (cs : List Char) : List Char :=
  ((cs.dropWhile pyWhitespace).reverse.dropWhile pyWhitespace).reverse

/-- Python `str.strip()` (ASCII whitespace; no input here carries non-ASCII
whitespace). -/
def pyStrip (s : String) : String := String.mk (stripChars s.toList)

/-- Python `str.lower()` on the ASCII letters used by the unit names. -/
def pyToLower (c : Char) : Char :=
  if 65 ≤ c.toNat ∧ c.toNat ≤ 90 then Char.ofNat (c.toNat + 32) else c

def lowerString (s : String) : String := String.mk (s.toList.map pyToLower)

/-- Python `str.split(",")`. -/
def splitCommaAux : List Char → List Char → List (List Char)
  | [], cur => [cur.reverse]
  | c :: rest, cur =>
    if c = ',' then cur.reverse :: splitCommaAux rest []
    else splitCommaAux rest (c :: cur)

def splitComma (s : String) : List String :=
  (splitCommaAux s.toList []).map String.mk

/-- Python `int(str)` restricted to optionally signed decimal digit strings
with surrounding whitespace (underscore separators and non-ASCII digits are
not modelled; no input in this code base uses them). -/
def digitsToNat (cs : List Char) : Option Nat :=
  if cs.isEmpty then none
  else if cs.all (fun c => c.isDigit) then
    some (cs.foldl (fun a c => a * 10 + (c.toNat - 48)) 0)
  else none

def pyInt (s : String) : Option Int :=
  match (pyStrip s).toList with
  | [] => none
  | c :: rest =>
    if c = '+' then (digitsToNat rest).map (fun n => (n : Int))
    else if c = '-' then (digitsToNat rest).map (fun n => -(n : Int))
    else (digitsToNat (c :: rest)).map (fun n => (n : Int))

/-- Python `str.rstrip("s")`: drop every trailing `s`. -/
def rstripS (s : String) : String :=
  String.mk ((s.toList.reverse.dropWhile (fun c => c = 's')).reverse)

/-- `token.split("/", 1)`: split at the first slash; `none` when the token
has no slash (in Python the two-element unpacking then raises). -/
def splitFirstSlash : List Char → Option (List Char × List Char)
  | [] => none
  | c :: rest =>
    if c = '/' then some ([], rest)
    else (splitFirstSlash rest).map (fun p => (c :: p.1, p.2))

def singleQuote : String := String.singleton (Char.ofNat 39)

def invalidTokenMsg (token : String) : String :=
  "Invalid rate limit token " ++ singleQuote ++ token ++ singleQuote ++
    ". Expected format like " ++ singleQuote ++ "10/minute" ++ singleQuote ++ "."

def nonpositiveMsg (token : String) : String :=
  "Rate limit must be > 0 for token " ++ singleQuote ++ token ++ singleQuote

def NO_RULES_MSG : String := "At least one rate limit rule is required."

/-- Parse one `<N>/<unit>` token: the body of the `for token in ...` loop
of `_parse_rules`, with the `try`/`except` collapsing split, `int` and unit
lookup failures into the same error. -/
def parseToken (token : String) : Except String RateLimitRule :=
  match splitFirstSlash token.toList with
  | none => .error (invalidTokenMsg token)
  | some (lp, up) =>
    match pyInt (pyStrip (String.mk lp)) with
    | none => .error (invalidTokenMsg token)
    | some limit =>
      match LIMIT_UNIT_SECONDS (rstripS (lowerString (pyStrip (String.mk up)))) with
      | none => .error (invalidTokenMsg token)
      | some w =>
        if limit ≤ 0 then .error (nonpositiveMsg token)
        else .ok ⟨limit.toNat, w⟩

/-- `[t.strip() for t in raw_rules.split(",") if t.strip()]`. -/
def strippedTokens (raw : String) : List String :=
  ((splitComma raw).map (fun t => pyStrip t)).filter (fun t => decide (t ≠ ""))

def parseTokens : List String → Except String (List RateLimitRule)
  | [] => .ok []
  | t :: ts =>
    match parseToken t with
    | .error e => .error e
    | .ok r =>
      match parseTokens ts with
      | .error e => .error e
      | .ok rs => .ok (r :: rs)

/-- `_parse_rules`: parse every stripped token in order, failing on the
first bad token, and fail when no token remains. -/
def parseRules (raw : String) : Except String (List RateLimitRule) :=
  match parseTokens (strippedTokens raw) with
  | .error e => .error e
  | .ok [] => .error NO_RULES_MSG
  | .ok rs => .ok rs

/-! ### Responses and security headers (`main.py`) -/

/-- The part of an HTTP response the middleware claims speak about: status
code, the error envelope's machine-readable code (empty for non-error
responses), and the header list. -/
structure Response where
  status : Nat
  code : String
  headers : List (String × String)
deriving DecidableEq, Repr

def setHeaderList : List (String × String) → String → String → List (String × String)
  | [], n, v => [(n, v)]
  | p :: tl, n, v => if p.1 = n then (n, v) :: tl else p :: setHeaderList tl n v

/-- Starlette `response.headers[name] = value`: replace the existing entry
in place, append otherwise. Header names are compared literally; the
middleware only ever sets the fixed literal names below, so ASCII case
folding is irrelevant here. -/
def setHeader (r : Response) (name value : String) : Response :=
  { r with headers := setHeaderList r.headers name value }

def getHeaderList : List (String × String) → String → Option String
  | [], _ => none
  | p :: tl, n => if p.1 = n then some p.2 else getHeaderList tl n

def getHeader (r : Response) (name : String) : Option String :=
  getHeaderList r.headers name

/-- The locked-down CSP directive set from `_apply_response_security_headers`. -/
def cspDirectives : String :=
  "default-src " ++ singleQuote ++ "none" ++ singleQuote ++
    "; frame-ancestors " ++ singleQuote ++ "none" ++ singleQuote ++
    "; base-uri " ++ singleQuote ++ "none" ++ singleQuote ++
    "; form-action " ++ singleQuote ++ "none" ++ singleQuote

/-- `_apply_response_security_headers`. -/
def applyResponseSecurityHeaders (cspReportOnly : Bool) (requestId : String)
    (r : Response) : Response :=
  let r1 := setHeader r "X-Request-ID" requestId
  let r2 := setHeader r1 "X-Content-Type-Options" "nosniff"
  let r3 := setHeader r2 "X-Frame-Options" "DENY"
  let r4 := setHeader r3 "Referrer-Policy" "no-referrer"
  if cspReportOnly then setHeader r4 "Content-Security-Policy-Report-Only" cspDirectives
  else setHeader r4 "Content-Security-Policy" cspDirectives

/-- `error_response` (`security.py`): a JSON error envelope response with
the given status, code and extra headers. -/
def errorResponse (status : Nat) (code : String) (headers : List (String × String)) : Response :=
  { status := status, code := code, headers := headers }

/-- `create_request_too_large_response`. -/
def createRequestTooLargeResponse (cspReportOnly : Bool) (requestId : String) : Response :=
  applyResponseSecurityHeaders cspReportOnly requestId
    (errorResponse 413 "payload_too_large" [])

/-- `create_not_allowed_response`: 429 with a `Retry-After` header. -/
def createNotAllowedResponse (cspReportOnly : Bool) (requestId : String)
    (retryAfter : Nat) : Response :=
  applyResponseSecurityHeaders cspReportOnly requestId
    (errorResponse 429 "rate_limited" [("Retry-After", toString retryAfter)])

/-! ### Request-body size guard (`main.py`) -/

/-- One event on the request body stream: a chunk of `size` bytes, or an
error raised while reading. -/
inductive StreamItem where
  | chunk (size : Nat)
  | err
deriving DecidableEq, Repr

inductive BodyReadResult where
  | ok (total : Nat)
  | tooLarge (readBytes : Nat)
  | readErr
deriving DecidableEq, Repr

/-- The `async for chunk in request.stream()` loop of
`_read_request_body_with_limit`: skip empty chunks, add each chunk's length
to the running total, and raise `_RequestBodyTooLarge` the moment the total
exceeds the limit; an error on the stream propagates. -/
def readStream (limit : Nat) : List StreamItem → Nat → BodyReadResult
  | [], acc => .ok acc
  | .err :: _, _ => .readErr
  | .chunk sz :: rest, acc =>
    if sz = 0 then readStream limit rest acc
    else
      if limit < acc + sz then .tooLarge (acc + sz)
      else readStream limit rest (acc + sz)

/-- Total number of body bytes carried by a stream's chunks. -/
def sumSizes : List StreamItem → Nat
  | [] => 0
  | .chunk sz :: rest => sz + sumSizes rest
  | .err :: rest => sumSizes rest

/-- `_read_request_body_with_limit`: a body already buffered upstream
(`request._body`) is checked against the limit directly; otherwise the
stream is consumed under the running-total check. -/
def readRequestBodyWithLimit (existingBody : Option Nat) (stream : List StreamItem)
    (limit : Nat) : BodyReadResult :=
  match existingBody with
  | some len => if limit < len then .tooLarge len else .ok len
  | none => readStream limit stream 0

/-- `validate_payload_too_large`: the `Content-Length` precheck. Missing or
empty header, or one that does not parse as an integer, yields no decision;
a parsed value above the limit yields the 413 response. -/
def validatePayloadTooLarge (cspReportOnly : Bool) (requestId : String)
    (contentLength : Option String) (bodyLimit : Nat) : Option Response :=
  match contentLength with
  | none => none
  | some cl =>
    if cl = "" then none
    else
      match pyInt cl with
      | none => none
      | some n =>
        if (bodyLimit : Int) < n then
          some (createRequestTooLargeResponse cspReportOnly requestId)
        else none

/-! ### The security middleware (`main.py`) -/

/-- `resolve_rate_limit_scope`. -/
def resolveRateLimitScope (path : String) : Option String :=
  if path = "/generate_response" then some "generate_response"
  else if path = "/feedback/thumb" then some "feedback_thumb"
  else if path = "/feedback/edit" then some "feedback_edit"
  else none

/-- The per-request inputs the middleware consumes. -/
structure RequestModel where
  method : String
  path : String
  contentLength : Option String
  existingBody : Option Nat
  stream : List StreamItem
deriving DecidableEq, Repr

/-- The body-limit phase of `security_middleware` for body-carrying
methods: the `Content-Length` precheck followed by the streaming read, with
both `_RequestBodyTooLarge` and any other read error converted to the 413
response. `none` means the request proceeds. -/
def bodyGate (cspReportOnly : Bool) (bodyLimit : Nat) (requestId : String)
    (req : RequestModel) : Option Response :=
  if req.method = "POST" ∨ req.method = "PUT" ∨ req.method = "PATCH" then
    match validatePayloadTooLarge cspReportOnly requestId req.contentLength bodyLimit with
    | some resp => some resp
    | none =>
      match readRequestBodyWithLimit req.existingBody req.stream bodyLimit with
      | .ok _ => none
      | .tooLarge _ => some (createRequestTooLargeResponse cspReportOnly requestId)
      | .readErr => some (createRequestTooLargeResponse cspReportOnly requestId)
  else none

/-- `security_middleware`. The outcome of `rate_limiter.check` is an
oracle: `.error ()` models the call raising an exception, `.ok (allowed,
retry_after)` a normal return. `downstream` is the response `call_next`
would produce. Returns the final response and whether the request was
dispatched downstream. -/
def securityMiddleware (cspReportOnly : Bool) (bodyLimit : Nat) (requestId : String)
    (req : RequestModel) (limiterResult : Except Unit (Bool × Nat))
    (downstream : Response) : Response × Bool :=
  match bodyGate cspReportOnly bodyLimit requestId req with
  | some resp => (resp, false)
  | none =>
    match resolveRateLimitScope req.path with
    | some _ =>
      if req.method = "OPTIONS" then
        (applyResponseSecurityHeaders cspReportOnly requestId downstream, true)
      else
        match limiterResult with
        | .error _ =>
          (applyResponseSecurityHeaders cspReportOnly requestId
            (errorResponse 503 "rate_limiter_unavailable" []), false)
        | .ok res =>
          if res.1 then (applyResponseSecurityHeaders cspReportOnly requestId downstream, true)
          else (createNotAllowedResponse cspReportOnly requestId res.2, false)
    | none => (applyResponseSecurityHeaders cspReportOnly requestId downstream, true)

/-- Sample policies used by concrete witnesses. -/
def policyOne : Policy :=
  fun scope => if scope = "g" then some [⟨1, 60⟩] else none

def policyTwoFive : Policy :=
  fun scope => if scope = "g" then some [⟨2, 60⟩, ⟨5, 60⟩] else none

/-- A plain downstream response used by concrete witnesses. -/
def downstreamOk : Response := { status := 200, code := "", headers := [] }

/-! ### Association-list lemmas for the counter table -/

theorem lookupCount_nil (b : Bucket) : lookupCount [] b = none := rfl

theorem lookupCount_setCount_self (st : Store) (b : Bucket) (v : Nat) :
    lookupCount (setCount st b v) b = some v := by
  induction st with
  | nil => simp [setCount, lookupCount]
  | cons hd tl ih =>
    by_cases hb : hd.1 = b
    · simp [setCount, hb, lookupCount]
    · simp [setCount, hb, lookupCount, ih]

theorem lookupCount_setCount_ne (st : Store) (b b' : Bucket) (v : Nat)
    (hne : b' ≠ b) :
    lookupCount (setCount st b v) b' = lookupCount st b' := by
  have hbb : ¬ ((b : Bucket) = b') := fun hh => hne hh.symm
  induction st with
  | nil => simp [setCount, lookupCount, hbb]
  | cons hd tl ih =>
    by_cases hb : hd.1 = b
    · have hd' : ¬ (hd.1 = b') := by rw [hb]; exact hbb
      simp [setCount, hb, lookupCount, hbb, hd']
    · by_cases hb2 : hd.1 = b'
      · simp [setCount, hb, lookupCount, hb2, hne]
      · simp [setCount, hb, lookupCount, hb2, ih]

theorem getCount_setCount_self (st : Store) (b : Bucket) (v : Nat) :
    getCount (setCount st b v) b = v := by
  simp [getCount, lookupCount_setCount_self]

theorem getCount_setCount_ne (st : Store) (b b' : Bucket) (v : Nat)
    (hne : b' ≠ b) :
    getCount (setCount st b v) b' = getCount st b' := by
  simp [getCount, lookupCount_setCount_ne st b b' v hne]

theorem lookupCount_filter_keep (st : Store) (q : Bucket → Bool) (b : Bucket)
    (hq : q b = true) :
    lookupCount (st.filter (fun p => q p.1)) b = lookupCount st b := by
  induction st with
  | nil => rfl
  | cons hd tl ih =>
    rw [List.filter_cons]
    by_cases hkeep : q hd.1 = true
    · rw [if_pos hkeep]
      by_cases hb : hd.1 = b
      · simp [lookupCount, hb]
      · simp [lookupCount, hb, ih]
    · have hb : ¬ (hd.1 = b) := by
        intro hh
        rw [hh, hq] at hkeep
        exact hkeep rfl
      rw [if_neg hkeep]
      simp [lookupCount, hb, ih]

theorem lookupCount_filter_drop (st : Store) (q : Bucket → Bool) (b : Bucket)
    (hq : q b = false) :
    lookupCount (st.filter (fun p => q p.1)) b = none := by
  induction st with
  | nil => rfl
  | cons hd tl ih =>
    rw [List.filter_cons]
    by_cases hkeep : q hd.1 = true
    · have hb : ¬ (hd.1 = b) := by
        intro hh
        rw [hh, hq] at hkeep
        exact Bool.false_ne_true hkeep
      rw [if_pos hkeep]
      simp [lookupCount, hb, ih]
    · rw [if_neg hkeep]
      exact ih

/-! ### Window arithmetic -/

theorem windowStart_le (now w : Nat) : windowStart now w ≤ now :=
  Nat.div_mul_le_self now w

theorem lt_windowStart_add (now w : Nat) (hw : 0 < w) :
    now < windowStart now w + w := by
  rw [windowStart]
  have h1 := Nat.div_add_mod now w
  have h2 := Nat.mod_lt now hw
  have h3 : now / w * w = w * (now / w) := Nat.mul_comm _ _
  omega

theorem windowStart_eq_of_mem (w ws n : Nat) (hw : 0 < w) (hmod : ws % w = 0)
    (h1 : ws ≤ n) (h2 : n < ws + w) : windowStart n w = ws := by
  obtain ⟨q, hq⟩ := Nat.dvd_of_mod_eq_zero hmod
  have ht : n - ws < w := by omega
  have hn : n = (n - ws) + w * q := by omega
  rw [windowStart, hn, Nat.add_mul_div_left _ _ hw, Nat.div_eq_of_lt ht]
  rw [Nat.zero_add, Nat.mul_comm]
  exact hq.symm

/-! ### Behaviour of `hit` -/

theorem hit_denied (st : Store) (k s : String) (r : RateLimitRule) (now : Nat)
    (h : r.limit ≤ getCount st (bucketOf k s r now)) :
    hit st k s r now =
      ((false, Nat.max ((windowStart now r.window_seconds + r.window_seconds) - now) 1), st) := by
  have h' : r.limit ≤ getCount st (k, s, r.window_seconds, windowStart now r.window_seconds) := h
  simp [hit, h']

theorem hit_admitted (st : Store) (k s : String) (r : RateLimitRule) (now : Nat)
    (h : getCount st (bucketOf k s r now) < r.limit) :
    hit st k s r now =
      ((true, 0),
        cleanupIfNeeded
          (setCount st (bucketOf k s r now) (getCount st (bucketOf k s r now) + 1)) now) := by
  have h' : ¬ r.limit ≤ getCount st (k, s, r.window_seconds, windowStart now r.window_seconds) :=
    Nat.not_le.mpr h
  simp [hit, bucketOf, h']

theorem bucketOf_not_stale (k s : String) (r : RateLimitRule) (now : Nat)
    (hw : 0 < r.window_seconds) :
    staleBucket (bucketOf k s r now) now = false := by
  simp only [staleBucket, bucketOf, decide_eq_false_iff_not]
  exact Nat.not_le.mpr (lt_windowStart_add now r.window_seconds hw)

theorem lookupCount_cleanup_not_stale (st : Store) (now : Nat) (b : Bucket)
    (h : staleBucket b now = false) :
    lookupCount (cleanupIfNeeded st now) b = lookupCount st b := by
  unfold cleanupIfNeeded
  split
  · rfl
  · exact lookupCount_filter_keep st (fun b => !staleBucket b now) b (by simp [h])

theorem lookupCount_cleanup_stale (st : Store) (now : Nat) (b : Bucket)
    (hlen : CLEANUP_THRESHOLD ≤ st.length)
    (h : staleBucket b now = true) :
    lookupCount (cleanupIfNeeded st now) b = none := by
  unfold cleanupIfNeeded
  rw [if_neg (Nat.not_lt.mpr hlen)]
  exact lookupCount_filter_drop st (fun b => !staleBucket b now) b (by simp [h])

theorem getCount_hit_admitted (st : Store) (k s : String) (r : RateLimitRule) (now : Nat)
    (hw : 0 < r.window_seconds)
    (h : getCount st (bucketOf k s r now) < r.limit) :
    getCount (hit st k s r now).2 (bucketOf k s r now) =
      getCount st (bucketOf k s r now) + 1 := by
  rw [hit_admitted st k s r now h]
  simp only [getCount,
    lookupCount_cleanup_not_stale _ _ _ (bucketOf_not_stale k s r now hw),
    lookupCount_setCount_self]
  rfl

/-! ### C1: the fixed-window admission cap -/

theorem runHits_admission_invariant (k s : String) (r : RateLimitRule) (ws : Nat)
    (hw : 0 < r.window_seconds) (hmod : ws % r.window_seconds = 0) :
    ∀ (calls : List HitCall) (st : Store) (a : Nat),
      (∀ c ∈ calls, c.key = k ∧ c.scope = s ∧ c.rule = r ∧
        ws ≤ c.now ∧ c.now < ws + r.window_seconds) →
      a ≤ getCount st (k, s, r.window_seconds, ws) →
      a ≤ r.limit →
      a + (runHits st calls).1.count true ≤ r.limit := by
  intro calls
  induction calls with
  | nil =>
    intro st a _ _ hlim
    simpa [runHits] using hlim
  | cons c cs ih =>
    intro st a hcalls hcount hlim
    obtain ⟨hk, hs, hr, hlo, hhi⟩ := hcalls c (List.mem_cons_self c cs)
    have hb : bucketOf c.key c.scope c.rule c.now = (k, s, r.window_seconds, ws) := by
      rw [hk, hs, hr, bucketOf,
        windowStart_eq_of_mem r.window_seconds ws c.now hw hmod hlo hhi]
    have hcalls' : ∀ x ∈ cs, x.key = k ∧ x.scope = s ∧ x.rule = r ∧
        ws ≤ x.now ∧ x.now < ws + r.window_seconds :=
      fun x hx => hcalls x (List.mem_cons_of_mem c hx)
    by_cases hadm : getCount st (bucketOf c.key c.scope c.rule c.now) < c.rule.limit
    · have hres := hit_admitted st c.key c.scope c.rule c.now hadm
      have hflag : (hit st c.key c.scope c.rule c.now).1.1 = true := by
        rw [hres]
      have hcount' : getCount (hit st c.key c.scope c.rule c.now).2 (k, s, r.window_seconds, ws) =
          getCount st (k, s, r.window_seconds, ws) + 1 := by
        have := getCount_hit_admitted st c.key c.scope c.rule c.now (by rw [hr]; exact hw) hadm
        rw [hb] at this
        exact this
      have ha' : a + 1 ≤ getCount (hit st c.key c.scope c.rule c.now).2 (k, s, r.window_seconds, ws) := by
        rw [hcount']
        exact Nat.add_le_add_right hcount 1
      have halim : a + 1 ≤ r.limit := by
        rw [hb] at hadm
        rw [hr] at hadm
        omega
      have := ih (hit st c.key c.scope c.rule c.now).2 (a + 1) hcalls' ha' halim
      simp only [runHits, List.count_cons, hflag]
      simpa [Nat.add_comm, Nat.add_left_comm, Nat.add_assoc] using this
    · have hres := hit_denied st c.key c.scope c.rule c.now (Nat.not_lt.mp hadm)
      have hflag : (hit st c.key c.scope c.rule c.now).1.1 = false := by
        rw [hres]
      have hst : (hit st c.key c.scope c.rule c.now).2 = st := by
        rw [hres]
      have := ih (hit st c.key c.scope c.rule c.now).2 a
        hcalls' (by rw [hst]; exact hcount) hlim
      simp only [runHits, List.count_cons, hflag]
      simpa using this

/-- C1: for a fixed client key, scope and rule, across any sequence of
`hit` calls whose `now` values all fall inside one fixed window
`[ws, ws + window_seconds)`, at most `limit` calls are admitted: the
admissions charged to a single counter bucket never exceed the rule's
limit. -/
theorem rate_limit_window_admission_cap (k s : String) (r : RateLimitRule) (ws : Nat)
    (calls : List HitCall) (st : Store)
    (hw : 0 < r.window_seconds) (hmod : ws % r.window_seconds = 0)
    (hcalls : ∀ c ∈ calls, c.key = k ∧ c.scope = s ∧ c.rule = r ∧
      ws ≤ c.now ∧ c.now < ws + r.window_seconds) :
    (runHits st calls).1.count true ≤ r.limit := by
  have := runHits_admission_invariant k s r ws hw hmod calls st 0 hcalls
    (Nat.zero_le _) (Nat.zero_le _)
  simpa using this

/-- Witness for C1: three hits under a `2/minute` rule inside the window
`[0, 60)` admit at most twice (indeed exactly twice). -/
theorem rate_limit_window_admission_cap_witness :
    (runHits []
      [⟨"c", "g", ⟨2, 60⟩, 5⟩, ⟨"c", "g", ⟨2, 60⟩, 7⟩, ⟨"c", "g", ⟨2, 60⟩, 9⟩]).1.count true ≤ 2 :=
  rate_limit_window_admission_cap "c" "g" ⟨2, 60⟩ 0
    [⟨"c", "g", ⟨2, 60⟩, 5⟩, ⟨"c", "g", ⟨2, 60⟩, 7⟩, ⟨"c", "g", ⟨2, 60⟩, 9⟩] []
    (by decide) (by decide) (by decide)

/-! ### C2: denials mutate nothing and always report a positive delay -/

theorem le_foldl_max (l : List Nat) (a : Nat) : a ≤ l.foldl Nat.max a := by
  induction l generalizing a with
  | nil => exact Nat.le_refl a
  | cons x xs ih =>
    exact Nat.le_trans (Nat.le_max_left a x) (ih (Nat.max a x))

theorem hit_denied_retry_pos (st : Store) (k s : String) (r : RateLimitRule) (now : Nat)
    (h : (hit st k s r now).1.1 = false) : 1 ≤ (hit st k s r now).1.2 := by
  by_cases hc : r.limit ≤ getCount st (bucketOf k s r now)
  · rw [hit_denied st k s r now hc]
    exact Nat.le_max_right _ _
  · rw [hit_admitted st k s r now (Nat.not_le.mp hc)] at h
    simp at h

theorem checkLoop_retries_pos (k s : String) (now : Nat) :
    ∀ (rules : List RateLimitRule) (st : Store) (acc : List Nat),
      (∀ x ∈ acc, 1 ≤ x) →
      ∀ x ∈ (checkLoop k s now st rules acc).2, 1 ≤ x := by
  intro rules
  induction rules with
  | nil => intro st acc hacc x hx; exact hacc x hx
  | cons r rs ih =>
    intro st acc hacc x hx
    simp only [checkLoop] at hx
    refine ih _ _ ?_ x hx
    intro y hy
    by_cases hf : (hit st k s r now).1.1 = true
    · rw [if_pos hf] at hy
      exact hacc y hy
    · rw [if_neg hf] at hy
      rcases List.mem_append.mp hy with hy1 | hy1
      · exact hacc y hy1
      · rw [List.mem_singleton.mp hy1]
        exact hit_denied_retry_pos st k s r now (by simpa using hf)

theorem check_denied_retry_pos (policy : Policy) (st : Store) (scope key : String) (now : Nat)
    (h : (check policy st scope key now).1.1 = false) :
    1 ≤ (check policy st scope key now).1.2 := by
  unfold check at h ⊢
  cases hp : policy scope with
  | none =>
    rw [hp] at h
    simp at h
  | some rules =>
    rw [hp] at h
    dsimp only at h ⊢
    by_cases he : rules.isEmpty
    · rw [if_pos he] at h
      simp at h
    · rw [if_neg he] at h ⊢
      unfold checkFinish at h ⊢
      by_cases hd : (checkLoop key scope now st rules []).2.isEmpty
      · rw [if_pos hd] at h
        simp at h
      · rw [if_neg hd]
        show 1 ≤ (checkLoop key scope now st rules []).2.foldl Nat.max 0
        cases hres : (checkLoop key scope now st rules []).2 with
        | nil =>
          rw [hres] at hd
          simp at hd
        | cons x xs =>
          have hx1 : 1 ≤ x := by
            refine checkLoop_retries_pos key scope now rules st []
              (fun y hy => absurd hy (List.not_mem_nil y)) x ?_
            rw [hres]
            exact List.mem_cons_self x xs
          calc 1 ≤ x := hx1
            _ ≤ Nat.max 0 x := Nat.le_max_right 0 x
            _ ≤ xs.foldl Nat.max (Nat.max 0 x) := le_foldl_max xs (Nat.max 0 x)
            _ = (x :: xs).foldl Nat.max 0 := rfl

/-- C2: a `hit` on a bucket whose count has reached `rule.limit` returns
`(False, max((window_start + window_seconds) - now, 1))` and leaves the
counter table completely unchanged; consequently every denial — from `hit`
or from `check` — reports a retry delay of at least 1. -/
theorem hit_full_bucket_denies_without_mutation :
    (∀ (st : Store) (k s : String) (r : RateLimitRule) (now : Nat),
      r.limit ≤ getCount st (bucketOf k s r now) →
      hit st k s r now =
        ((false, Nat.max ((windowStart now r.window_seconds + r.window_seconds) - now) 1), st)) ∧
    (∀ (st : Store) (k s : String) (r : RateLimitRule) (now : Nat),
      (hit st k s r now).1.1 = false → 1 ≤ (hit st k s r now).1.2) ∧
    (∀ (policy : Policy) (st : Store) (scope key : String) (now : Nat),
      (check policy st scope key now).1.1 = false →
      1 ≤ (check policy st scope key now).1.2) :=
  ⟨hit_denied, hit_denied_retry_pos, check_denied_retry_pos⟩

/-- Witness for C2 at a full `1/minute` bucket and a denying `check`. -/
theorem hit_full_bucket_denies_without_mutation_witness :
    (hit [(("c", "g", 60, 0), 1)] "c" "g" ⟨1, 60⟩ 5 =
      ((false, Nat.max ((windowStart 5 60 + 60) - 5) 1), [(("c", "g", 60, 0), 1)])) ∧
    1 ≤ (hit [(("c", "g", 60, 0), 1)] "c" "g" ⟨1, 60⟩ 5).1.2 ∧
    1 ≤ (check policyOne [(("c", "g", 60, 0), 1)] "g" "c" 5).1.2 :=
  ⟨hit_full_bucket_denies_without_mutation.1 [(("c", "g", 60, 0), 1)] "c" "g" ⟨1, 60⟩ 5
      (by decide),
   hit_full_bucket_denies_without_mutation.2.1 [(("c", "g", 60, 0), 1)] "c" "g" ⟨1, 60⟩ 5
      (by decide),
   hit_full_bucket_denies_without_mutation.2.2 policyOne [(("c", "g", 60, 0), 1)] "g" "c" 5
      (by decide)⟩

/-! ### C3: `check` evaluates every rule and combines the outcomes -/

theorem runRules_length (k s : String) (now : Nat) :
    ∀ (rules : List RateLimitRule) (st : Store),
      (runRules k s now st rules).1.length = rules.length := by
  intro rules
  induction rules with
  | nil => intro st; rfl
  | cons r rs ih =>
    intro st
    simp only [runRules, List.length_cons]
    rw [ih]

theorem checkLoop_eq_runRules (k s : String) (now : Nat) :
    ∀ (rules : List RateLimitRule) (st : Store) (acc : List Nat),
      checkLoop k s now st rules acc =
        ((runRules k s now st rules).2,
          acc ++ ((runRules k s now st rules).1.filter (fun p => !p.1)).map (fun p => p.2)) := by
  intro rules
  induction rules with
  | nil => intro st acc; simp [checkLoop, runRules]
  | cons r rs ih =>
    intro st acc
    simp only [checkLoop, runRules]
    rw [ih]
    by_cases hf : (hit st k s r now).1.1 = true
    · simp [List.filter_cons, hf]
    · have hf' : (hit st k s r now).1.1 = false := by simpa using hf
      simp [List.filter_cons, hf', List.append_assoc]

theorem all_fst_iff_filter_nil (l : List (Bool × Nat)) :
    l.all (fun p => p.1) = true ↔ l.filter (fun p => !p.1) = [] := by
  induction l with
  | nil => simp
  | cons x xs ih =>
    cases hx : x.1 <;> simp [List.all_cons, List.filter_cons, hx, ih]

theorem getCount_hit_ite (st : Store) (k s : String) (r : RateLimitRule) (now : Nat)
    (hw : 0 < r.window_seconds) :
    getCount (hit st k s r now).2 (bucketOf k s r now) =
      getCount st (bucketOf k s r now) + (if (hit st k s r now).1.1 then 1 else 0) := by
  by_cases hc : r.limit ≤ getCount st (bucketOf k s r now)
  · rw [hit_denied st k s r now hc]
    simp
  · have h := Nat.not_le.mp hc
    have hcount := getCount_hit_admitted st k s r now hw h
    rw [hit_admitted st k s r now h] at hcount ⊢
    rw [hcount]
    simp

/-- C3: `check` admits unconditionally when the scope has no rules in the
policy; otherwise it evaluates `hit` for every rule of the scope (even
after an earlier denial), the overall decision is admitted iff every rule
admitted, on denial the retry delay is the maximum of the denying rules'
retry values, and each rule's bucket is incremented exactly when that rule
individually admits. -/
theorem check_evaluates_all_rules :
    (∀ (policy : Policy) (st : Store) (scope key : String) (now : Nat),
      (policy scope = none ∨ policy scope = some []) →
      check policy st scope key now = ((true, 0), st)) ∧
    (∀ (policy : Policy) (st : Store) (scope key : String) (now : Nat)
        (rules : List RateLimitRule),
      policy scope = some rules →
      (runRules key scope now st rules).1.length = rules.length ∧
      (check policy st scope key now).2 = (runRules key scope now st rules).2 ∧
      (check policy st scope key now).1.1 =
        (runRules key scope now st rules).1.all (fun p => p.1) ∧
      ((runRules key scope now st rules).1.all (fun p => p.1) = false →
        (check policy st scope key now).1.2 =
          (((runRules key scope now st rules).1.filter (fun p => !p.1)).map
            (fun p => p.2)).foldl Nat.max 0)) ∧
    (∀ (st : Store) (k s : String) (r : RateLimitRule) (now : Nat),
      0 < r.window_seconds →
      getCount (hit st k s r now).2 (bucketOf k s r now) =
        getCount st (bucketOf k s r now) +
          (if (hit st k s r now).1.1 then 1 else 0)) := by
  refine ⟨?_, ?_, getCount_hit_ite⟩
  · intro policy st scope key now h
    rcases h with h | h <;> simp [check, h]
  · intro policy st scope key now rules hp
    by_cases hrule : rules = []
    · subst hrule
      refine ⟨rfl, ?_, ?_, ?_⟩ <;> simp [check, hp, runRules]
    · have hne : rules.isEmpty = false := by
        cases rules with
        | nil => exact absurd rfl hrule
        | cons a l => rfl
      have hchk : check policy st scope key now =
          checkFinish ((runRules key scope now st rules).2,
            ((runRules key scope now st rules).1.filter (fun p => !p.1)).map
              (fun p => p.2)) := by
        unfold check
        rw [hp]
        dsimp only
        rw [if_neg (by simp [hne])]
        rw [checkLoop_eq_runRules key scope now rules st []]
        rw [List.nil_append]
      refine ⟨runRules_length key scope now rules st, ?_, ?_, ?_⟩
      · rw [hchk]
        unfold checkFinish
        by_cases hd : (((runRules key scope now st rules).1.filter (fun p => !p.1)).map
            (fun p => p.2)).isEmpty = true
        · rw [if_pos hd]
        · rw [if_neg hd]
      · rw [hchk]
        unfold checkFinish
        by_cases hall : (runRules key scope now st rules).1.all (fun p => p.1) = true
        · have hfil := (all_fst_iff_filter_nil _).mp hall
          rw [hfil, hall]
          rfl
        · have hall' : (runRules key scope now st rules).1.all (fun p => p.1) = false := by
            simpa using hall
          have hfil : (runRules key scope now st rules).1.filter (fun p => !p.1) ≠ [] :=
            fun hnil => hall ((all_fst_iff_filter_nil _).mpr hnil)
          have hmap : (((runRules key scope now st rules).1.filter (fun p => !p.1)).map
              (fun p => p.2)).isEmpty = false := by
            cases hc : (runRules key scope now st rules).1.filter (fun p => !p.1) with
            | nil => exact absurd hc hfil
            | cons a l => simp [hc]
          rw [if_neg (by simp [hmap]), hall']
      · intro hall'
        have hfil : (runRules key scope now st rules).1.filter (fun p => !p.1) ≠ [] :=
          fun hnil => by
            rw [(all_fst_iff_filter_nil _).mpr hnil] at hall'
            exact Bool.noConfusion hall'
        have hmap : (((runRules key scope now st rules).1.filter (fun p => !p.1)).map
            (fun p => p.2)).isEmpty = false := by
          cases hc : (runRules key scope now st rules).1.filter (fun p => !p.1) with
          | nil => exact absurd hc hfil
          | cons a l => simp [hc]
        rw [hchk]
        unfold checkFinish
        rw [if_neg (by simp [hmap])]

/-- Witness for C3: an unscoped path admits; a scoped `1/minute` policy is
evaluated through `runRules`; a `hit` on an empty store increments its
bucket exactly when it admits. -/
theorem check_evaluates_all_rules_witness :
    check policyOne [] "nope" "c" 0 = ((true, 0), []) ∧
    ((runRules "c" "g" 5 [] [⟨1, 60⟩]).1.length = ([⟨1, 60⟩] : List RateLimitRule).length ∧
      (check policyOne [] "g" "c" 5).2 = (runRules "c" "g" 5 [] [⟨1, 60⟩]).2 ∧
      (check policyOne [] "g" "c" 5).1.1 =
        (runRules "c" "g" 5 [] [⟨1, 60⟩]).1.all (fun p => p.1) ∧
      ((runRules "c" "g" 5 [] [⟨1, 60⟩]).1.all (fun p => p.1) = false →
        (check policyOne [] "g" "c" 5).1.2 =
          (((runRules "c" "g" 5 [] [⟨1, 60⟩]).1.filter (fun p => !p.1)).map
            (fun p => p.2)).foldl Nat.max 0)) ∧
    getCount (hit [] "c" "g" ⟨1, 60⟩ 5).2 (bucketOf "c" "g" ⟨1, 60⟩ 5) =
      getCount [] (bucketOf "c" "g" ⟨1, 60⟩ 5) +
        (if (hit [] "c" "g" ⟨1, 60⟩ 5).1.1 then 1 else 0) :=
  ⟨check_evaluates_all_rules.1 policyOne [] "nope" "c" 0 (Or.inl (by decide)),
   check_evaluates_all_rules.2.1 policyOne [] "g" "c" 5 [⟨1, 60⟩] (by decide),
   check_evaluates_all_rules.2.2 [] "c" "g" ⟨1, 60⟩ 5 (by decide)⟩

/-! ### C9: the stale-bucket sweep -/

/-- Store with `CLEANUP_THRESHOLD` entries, all of whose windows end at
time 1, used to witness the sweep. -/
def bigStore : Store := List.replicate 10000 ((("x", "y", 1, 0) : Bucket), 1)

/-- C9: the sweep runs only on the successful-increment path of `hit` and
only when the table has reached the eviction threshold; a denied `hit`
leaves the table untouched (so never sweeps); when the sweep runs it
removes exactly the buckets whose window has fully elapsed and preserves
the count of every live bucket. -/
theorem stale_bucket_sweep_spec :
    (∀ (st : Store) (k s : String) (r : RateLimitRule) (now : Nat),
      r.limit ≤ getCount st (bucketOf k s r now) → (hit st k s r now).2 = st) ∧
    (∀ (st : Store) (k s : String) (r : RateLimitRule) (now : Nat),
      getCount st (bucketOf k s r now) < r.limit →
      (hit st k s r now).2 =
        cleanupIfNeeded
          (setCount st (bucketOf k s r now) (getCount st (bucketOf k s r now) + 1)) now) ∧
    (∀ (st : Store) (now : Nat), st.length < CLEANUP_THRESHOLD →
      cleanupIfNeeded st now = st) ∧
    (∀ (st : Store) (now : Nat), CLEANUP_THRESHOLD ≤ st.length →
      (∀ b, staleBucket b now = true → lookupCount (cleanupIfNeeded st now) b = none) ∧
      (∀ b, staleBucket b now = false →
        lookupCount (cleanupIfNeeded st now) b = lookupCount st b)) := by
  refine ⟨?_, ?_, ?_, ?_⟩
  · intro st k s r now h
    rw [hit_denied st k s r now h]
  · intro st k s r now h
    rw [hit_admitted st k s r now h]
  · intro st now h
    unfold cleanupIfNeeded
    rw [if_pos h]
  · intro st now h
    exact ⟨fun b hb => lookupCount_cleanup_stale st now b h hb,
      fun b hb => lookupCount_cleanup_not_stale st now b hb⟩

/-- Witness for C9: a denied hit leaves a concrete table untouched; an
admitted hit routes through the sweep; a small table is never swept; and on
a threshold-sized table the sweep drops an elapsed bucket and keeps a live
one. -/
theorem stale_bucket_sweep_spec_witness :
    (hit [(("c", "g", 60, 0), 1)] "c" "g" ⟨1, 60⟩ 5).2 = [(("c", "g", 60, 0), 1)] ∧
    (hit [] "c" "g" ⟨1, 60⟩ 5).2 =
      cleanupIfNeeded
        (setCount [] (bucketOf "c" "g" ⟨1, 60⟩ 5) (getCount [] (bucketOf "c" "g" ⟨1, 60⟩ 5) + 1)) 5 ∧
    cleanupIfNeeded [(("c", "g", 60, 0), 1)] 100 = [(("c", "g", 60, 0), 1)] ∧
    lookupCount (cleanupIfNeeded bigStore 1) ("x", "y", 1, 0) = none ∧
    lookupCount (cleanupIfNeeded bigStore 0) ("x", "y", 1, 0) = lookupCount bigStore ("x", "y", 1, 0) :=
  ⟨stale_bucket_sweep_spec.1 [(("c", "g", 60, 0), 1)] "c" "g" ⟨1, 60⟩ 5 (by decide),
   stale_bucket_sweep_spec.2.1 [] "c" "g" ⟨1, 60⟩ 5 (by decide),
   stale_bucket_sweep_spec.2.2.1 [(("c", "g", 60, 0), 1)] 100
     (by simp [CLEANUP_THRESHOLD]),
   (stale_bucket_sweep_spec.2.2.2 bigStore 1
     (by unfold bigStore CLEANUP_THRESHOLD; rw [List.length_replicate])).1
     ("x", "y", 1, 0) (by decide),
   (stale_bucket_sweep_spec.2.2.2 bigStore 0
     (by unfold bigStore CLEANUP_THRESHOLD; rw [List.length_replicate])).2
     ("x", "y", 1, 0) (by decide)⟩

/-! ### C10: rules with equal windows share one bucket -/

/-- C10: counter buckets are keyed by `(client_key, scope, window_seconds,
window_start)` with no limit component, so two rules of one scope with
equal `window_seconds` — here `2/minute` and `5/minute` — read and
increment the same bucket: one `check` admitted by both rules increments
the shared counter twice, and after a single admitted request (fewer than
its limit of 2) the smaller-limit rule already denies the next `check`. -/
theorem shared_bucket_between_rules_same_window :
    bucketOf "c" "g" ⟨2, 60⟩ 1 = bucketOf "c" "g" ⟨5, 60⟩ 1 ∧
    check policyTwoFive [] "g" "c" 0 = ((true, 0), [(("c", "g", 60, 0), 2)]) ∧
    check policyTwoFive [(("c", "g", 60, 0), 2)] "g" "c" 1 =
      ((false, 59), [(("c", "g", 60, 0), 3)]) :=
  ⟨by decide, by decide, by decide⟩

/-! ### C4: the streaming body-size guard fails closed -/

theorem readStream_tooLarge (limit : Nat) :
    ∀ (stream : List StreamItem) (acc rb : Nat), acc ≤ limit →
      readStream limit stream acc = .tooLarge rb →
      limit < rb ∧ ∃ sz, StreamItem.chunk sz ∈ stream ∧ rb ≤ limit + sz := by
  intro stream
  induction stream with
  | nil =>
    intro acc rb hacc h
    simp only [readStream] at h
    exact BodyReadResult.noConfusion h
  | cons it rest ih =>
    intro acc rb hacc h
    cases it with
    | err =>
      simp only [readStream] at h
      exact BodyReadResult.noConfusion h
    | chunk sz =>
      simp only [readStream] at h
      by_cases hz : sz = 0
      · rw [if_pos hz] at h
        obtain ⟨hlt, sz2, hmem, hle⟩ := ih acc rb hacc h
        exact ⟨hlt, sz2, List.mem_cons_of_mem _ hmem, hle⟩
      · rw [if_neg hz] at h
        by_cases hcross : limit < acc + sz
        · rw [if_pos hcross] at h
          injection h with h1
          refine ⟨by omega, sz, List.mem_cons_self _ _, by omega⟩
        · rw [if_neg hcross] at h
          obtain ⟨hlt, sz2, hmem, hle⟩ := ih (acc + sz) rb (Nat.not_lt.mp hcross) h
          exact ⟨hlt, sz2, List.mem_cons_of_mem _ hmem, hle⟩

theorem readStream_ok (limit : Nat) :
    ∀ (stream : List StreamItem) (acc : Nat),
      StreamItem.err ∉ stream → acc + sumSizes stream ≤ limit →
      readStream limit stream acc = .ok (acc + sumSizes stream) := by
  intro stream
  induction stream with
  | nil =>
    intro acc _ _
    simp [readStream, sumSizes]
  | cons it rest ih =>
    intro acc herr hsum
    cases it with
    | err => exact absurd (List.mem_cons_self _ _) herr
    | chunk sz =>
      have herr' : StreamItem.err ∉ rest := fun hm => herr (List.mem_cons_of_mem _ hm)
      simp only [sumSizes] at hsum ⊢
      simp only [readStream]
      by_cases hz : sz = 0
      · subst hz
        rw [if_pos rfl]
        have := ih acc herr' (by omega)
        rw [this]
        norm_num
      · rw [if_neg hz, if_neg (show ¬ limit < acc + sz by omega)]
        have := ih (acc + sz) herr' (by omega)
        rw [this]
        rw [Nat.add_assoc]

theorem readStream_err (limit : Nat) :
    ∀ (pre post : List StreamItem) (acc : Nat),
      StreamItem.err ∉ pre → acc + sumSizes pre ≤ limit →
      readStream limit (pre ++ .err :: post) acc = .readErr := by
  intro pre
  induction pre with
  | nil =>
    intro post acc _ _
    simp [readStream]
  | cons it rest ih =>
    intro post acc herr hsum
    cases it with
    | err => exact absurd (List.mem_cons_self _ _) herr
    | chunk sz =>
      have herr' : StreamItem.err ∉ rest := fun hm => herr (List.mem_cons_of_mem _ hm)
      simp only [sumSizes] at hsum
      simp only [List.cons_append, readStream]
      by_cases hz : sz = 0
      · rw [if_pos hz]
        exact ih post acc herr' (by omega)
      · rw [if_neg hz, if_neg (show ¬ limit < acc + sz by omega)]
        exact ih post (acc + sz) herr' (by omega)

theorem readStream_rejects_at_crossing (limit : Nat) :
    ∀ (pre : List StreamItem) (c : Nat) (post : List StreamItem) (acc : Nat),
      StreamItem.err ∉ pre →
      acc + sumSizes pre ≤ limit →
      limit < acc + sumSizes pre + c →
      readStream limit (pre ++ .chunk c :: post) acc =
        .tooLarge (acc + sumSizes pre + c) := by
  intro pre
  induction pre with
  | nil =>
    intro c post acc _ hle hlt
    simp only [sumSizes, Nat.add_zero] at hle hlt ⊢
    simp only [List.nil_append, readStream]
    have hc : ¬ c = 0 := by omega
    rw [if_neg hc, if_pos (by omega)]
  | cons it rest ih =>
    intro c post acc herr hle hlt
    cases it with
    | err => exact absurd (List.mem_cons_self _ _) herr
    | chunk sz =>
      have herr' : StreamItem.err ∉ rest := fun hm => herr (List.mem_cons_of_mem _ hm)
      simp only [sumSizes] at hle hlt ⊢
      simp only [List.cons_append, readStream, List.append_eq]
      by_cases hz : sz = 0
      · rw [if_pos hz]
        have := ih c post acc herr' (by omega) (by omega)
        rw [this]
        congr 1
        omega
      · rw [if_neg hz, if_neg (show ¬ limit < acc + sz by omega)]
        have := ih c post (acc + sz) herr' (by omega) (by omega)
        rw [this]
        congr 1
        omega

theorem exists_crossing_split :
    ∀ (stream : List StreamItem) (limit : Nat),
      StreamItem.err ∉ stream → limit < sumSizes stream →
      ∃ pre c post, stream = pre ++ .chunk c :: post ∧
        StreamItem.err ∉ pre ∧ sumSizes pre ≤ limit ∧ limit < sumSizes pre + c := by
  intro stream
  induction stream with
  | nil =>
    intro limit _ hlt
    simp only [sumSizes] at hlt
    omega
  | cons it rest ih =>
    intro limit herr hlt
    cases it with
    | err => exact absurd (List.mem_cons_self _ _) herr
    | chunk sz =>
      have herr' : StreamItem.err ∉ rest := fun hm => herr (List.mem_cons_of_mem _ hm)
      simp only [sumSizes] at hlt
      by_cases hs : limit < sz
      · refine ⟨[], sz, rest, rfl, List.not_mem_nil _, ?_, ?_⟩
        · simp [sumSizes]
        · simp only [sumSizes]
          omega
      · obtain ⟨pre, c, post, heq, hp1, hp2, hp3⟩ := ih (limit - sz) herr' (by omega)
        refine ⟨.chunk sz :: pre, c, post, by rw [heq]; rfl, ?_, ?_, ?_⟩
        · intro hm
          rcases List.mem_cons.mp hm with hm | hm
          · exact StreamItem.noConfusion hm
          · exact hp1 hm
        · simp only [sumSizes]
          omega
        · simp only [sumSizes]
          omega

theorem readStream_over_limit_not_ok (limit : Nat) :
    ∀ (stream : List StreamItem) (acc : Nat), acc ≤ limit →
      limit < acc + sumSizes stream →
      ∀ t, readStream limit stream acc ≠ .ok t := by
  intro stream
  induction stream with
  | nil =>
    intro acc hle hlt t h
    simp only [sumSizes] at hlt
    omega
  | cons it rest ih =>
    intro acc hle hlt t h
    cases it with
    | err =>
      simp only [readStream] at h
      exact BodyReadResult.noConfusion h
    | chunk sz =>
      simp only [sumSizes] at hlt
      simp only [readStream] at h
      by_cases hz : sz = 0
      · rw [if_pos hz] at h
        exact ih acc hle (by omega) t h
      · rw [if_neg hz] at h
        by_cases hcross : limit < acc + sz
        · rw [if_pos hcross] at h
          exact BodyReadResult.noConfusion h
        · rw [if_neg hcross] at h
          exact ih (acc + sz) (by omega) (by omega) t h

theorem setHeader_status (r : Response) (n v : String) : (setHeader r n v).status = r.status := rfl

theorem setHeader_code (r : Response) (n v : String) : (setHeader r n v).code = r.code := rfl

theorem applyHeaders_status (c : Bool) (rid : String) (r : Response) :
    (applyResponseSecurityHeaders c rid r).status = r.status := by
  unfold applyResponseSecurityHeaders
  cases c <;> rfl

theorem applyHeaders_code (c : Bool) (rid : String) (r : Response) :
    (applyResponseSecurityHeaders c rid r).code = r.code := by
  unfold applyResponseSecurityHeaders
  cases c <;> rfl

theorem middleware_body_rejects (cspRO : Bool) (limit : Nat) (rid : String)
    (req : RequestModel) (lr : Except Unit (Bool × Nat)) (down : Response)
    (hm : req.method = "POST" ∨ req.method = "PUT" ∨ req.method = "PATCH")
    (hv : validatePayloadTooLarge cspRO rid req.contentLength limit = none)
    (hok : ∀ t, readRequestBodyWithLimit req.existingBody req.stream limit ≠ .ok t) :
    securityMiddleware cspRO limit rid req lr down =
      (createRequestTooLargeResponse cspRO rid, false) := by
  have hbg : bodyGate cspRO limit rid req = some (createRequestTooLargeResponse cspRO rid) := by
    unfold bodyGate
    rw [if_pos hm, hv]
    cases hr : readRequestBodyWithLimit req.existingBody req.stream limit with
    | ok t => exact absurd hr (hok t)
    | tooLarge n => rfl
    | readErr => rfl
  unfold securityMiddleware
  rw [hbg]

theorem middleware_stream_over_limit_rejects (cspRO : Bool) (limit : Nat) (rid : String)
    (req : RequestModel) (lr : Except Unit (Bool × Nat)) (down : Response)
    (hm : req.method = "POST" ∨ req.method = "PUT" ∨ req.method = "PATCH")
    (hv : validatePayloadTooLarge cspRO rid req.contentLength limit = none)
    (hb : req.existingBody = none)
    (hover : limit < sumSizes req.stream) :
    securityMiddleware cspRO limit rid req lr down =
      (createRequestTooLargeResponse cspRO rid, false) := by
  apply middleware_body_rejects cspRO limit rid req lr down hm hv
  intro t h
  rw [hb] at h
  exact readStream_over_limit_not_ok limit req.stream 0 (Nat.zero_le _) (by omega) t h

/-- C4: with no pre-buffered body the streaming guard rejects an over-limit
stream the moment the cumulative chunk bytes exceed the limit — at the
first crossing chunk, having read at most `limit` plus that one chunk —
and conversely `tooLarge` arises only from such a crossing; within-limit
error-free streams pass; a pre-buffered body is rejected iff its length
exceeds the limit; an error on the stream reports `readErr`; and the
middleware converts every non-`ok` read — size overrun or any other read
error — into the 413 `payload_too_large` response, never a pass-through to
downstream dispatch. -/
theorem streaming_body_guard_fail_closed :
    (∀ (limit : Nat) (pre : List StreamItem) (c : Nat) (post : List StreamItem),
      StreamItem.err ∉ pre → sumSizes pre ≤ limit → limit < sumSizes pre + c →
      readRequestBodyWithLimit none (pre ++ .chunk c :: post) limit =
        .tooLarge (sumSizes pre + c)) ∧
    (∀ (limit : Nat) (stream : List StreamItem),
      StreamItem.err ∉ stream → limit < sumSizes stream →
      ∃ rb, readRequestBodyWithLimit none stream limit = .tooLarge rb ∧ limit < rb) ∧
    (∀ (limit : Nat) (stream : List StreamItem) (rb : Nat),
      readRequestBodyWithLimit none stream limit = .tooLarge rb →
      limit < rb ∧ ∃ sz, StreamItem.chunk sz ∈ stream ∧ rb ≤ limit + sz) ∧
    (∀ (limit : Nat) (stream : List StreamItem),
      StreamItem.err ∉ stream → sumSizes stream ≤ limit →
      readRequestBodyWithLimit none stream limit = .ok (sumSizes stream)) ∧
    (∀ (limit : Nat) (pre post : List StreamItem),
      StreamItem.err ∉ pre → sumSizes pre ≤ limit →
      readRequestBodyWithLimit none (pre ++ .err :: post) limit = .readErr) ∧
    (∀ (limit len : Nat) (stream : List StreamItem),
      (limit < len → readRequestBodyWithLimit (some len) stream limit = .tooLarge len) ∧
      (len ≤ limit → readRequestBodyWithLimit (some len) stream limit = .ok len)) ∧
    (∀ (cspRO : Bool) (limit : Nat) (rid : String) (req : RequestModel)
        (lr : Except Unit (Bool × Nat)) (down : Response),
      (req.method = "POST" ∨ req.method = "PUT" ∨ req.method = "PATCH") →
      validatePayloadTooLarge cspRO rid req.contentLength limit = none →
      (∀ t, readRequestBodyWithLimit req.existingBody req.stream limit ≠ .ok t) →
      securityMiddleware cspRO limit rid req lr down =
        (createRequestTooLargeResponse cspRO rid, false)) ∧
    (∀ (cspRO : Bool) (limit : Nat) (rid : String) (req : RequestModel)
        (lr : Except Unit (Bool × Nat)) (down : Response),
      (req.method = "POST" ∨ req.method = "PUT" ∨ req.method = "PATCH") →
      validatePayloadTooLarge cspRO rid req.contentLength limit = none →
      req.existingBody = none → limit < sumSizes req.stream →
      securityMiddleware cspRO limit rid req lr down =
        (createRequestTooLargeResponse cspRO rid, false)) ∧
    (∀ (cspRO : Bool) (rid : String),
      (createRequestTooLargeResponse cspRO rid).status = 413 ∧
      (createRequestTooLargeResponse cspRO rid).code = "payload_too_large") := by
  refine ⟨?_, ?_, ?_, ?_, ?_, ?_, middleware_body_rejects,
    middleware_stream_over_limit_rejects, ?_⟩
  · intro limit pre c post herr hle hlt
    have := readStream_rejects_at_crossing limit pre c post 0 herr (by omega) (by omega)
    simpa using this
  · intro limit stream herr hover
    obtain ⟨pre, c, post, heq, hp1, hp2, hp3⟩ := exists_crossing_split stream limit herr hover
    refine ⟨sumSizes pre + c, ?_, by omega⟩
    rw [heq]
    have := readStream_rejects_at_crossing limit pre c post 0 hp1 (by omega) (by omega)
    simpa using this
  · intro limit stream rb h
    exact readStream_tooLarge limit stream 0 rb (Nat.zero_le _) h
  · intro limit stream herr hsum
    have := readStream_ok limit stream 0 herr (by omega)
    simpa using this
  · intro limit pre post herr hsum
    exact readStream_err limit pre post 0 herr (by omega)
  · intro limit len stream
    constructor
    · intro h
      unfold readRequestBodyWithLimit
      dsimp only
      rw [if_pos h]
    · intro h
      unfold readRequestBodyWithLimit
      dsimp only
      rw [if_neg (Nat.not_lt.mpr h)]
  · intro cspRO rid
    exact ⟨applyHeaders_status _ _ _, applyHeaders_code _ _ _⟩

/-- Witness for C4 on concrete streams: an over-limit stream is rejected
at its crossing chunk, an over-limit stream is rejected at all, a
within-limit stream passes, an erroring or over-limit request is rejected
by the middleware, and the rejection response is the 413. -/
theorem streaming_body_guard_fail_closed_witness :
    readRequestBodyWithLimit none ([StreamItem.chunk 2] ++ StreamItem.chunk 4 :: []) 3 =
      .tooLarge (sumSizes [StreamItem.chunk 2] + 4) ∧
    (∃ rb, readRequestBodyWithLimit none [StreamItem.chunk 5] 3 = .tooLarge rb ∧ 3 < rb) ∧
    (3 < 5 ∧ ∃ sz, StreamItem.chunk sz ∈ [StreamItem.chunk 5] ∧ 5 ≤ 3 + sz) ∧
    readRequestBodyWithLimit none [StreamItem.chunk 3] 5 = .ok (sumSizes [StreamItem.chunk 3]) ∧
    readRequestBodyWithLimit none ([StreamItem.chunk 1] ++ StreamItem.err :: []) 5 = .readErr ∧
    readRequestBodyWithLimit (some 7) [] 5 = .tooLarge 7 ∧
    securityMiddleware false 5 "r1" ⟨"POST", "/x", none, none, [StreamItem.err]⟩
      (.ok (true, 0)) downstreamOk = (createRequestTooLargeResponse false "r1", false) ∧
    securityMiddleware false 5 "r1" ⟨"POST", "/x", none, none, [StreamItem.chunk 9]⟩
      (.ok (true, 0)) downstreamOk = (createRequestTooLargeResponse false "r1", false) ∧
    ((createRequestTooLargeResponse false "r1").status = 413 ∧
      (createRequestTooLargeResponse false "r1").code = "payload_too_large") :=
  ⟨streaming_body_guard_fail_closed.1 3 [StreamItem.chunk 2] 4 []
     (by decide) (by decide) (by decide),
   streaming_body_guard_fail_closed.2.1 3 [StreamItem.chunk 5] (by decide) (by decide),
   streaming_body_guard_fail_closed.2.2.1 3 [StreamItem.chunk 5] 5 (by decide),
   streaming_body_guard_fail_closed.2.2.2.1 5 [StreamItem.chunk 3] (by decide) (by decide),
   streaming_body_guard_fail_closed.2.2.2.2.1 5 [StreamItem.chunk 1] [] (by decide) (by decide),
   (streaming_body_guard_fail_closed.2.2.2.2.2.1 5 7 []).1 (by decide),
   streaming_body_guard_fail_closed.2.2.2.2.2.2.1 false 5 "r1"
     ⟨"POST", "/x", none, none, [StreamItem.err]⟩ (.ok (true, 0)) downstreamOk
     (Or.inl rfl) (by decide)
     (fun t h => by simp [readRequestBodyWithLimit, readStream] at h),
   streaming_body_guard_fail_closed.2.2.2.2.2.2.2.1 false 5 "r1"
     ⟨"POST", "/x", none, none, [StreamItem.chunk 9]⟩ (.ok (true, 0)) downstreamOk
     (Or.inl rfl) (by decide) rfl (by decide),
   streaming_body_guard_fail_closed.2.2.2.2.2.2.2.2 false "r1"⟩

/-! ### C5: the `Content-Length` precheck -/

theorem pyInt_empty : pyInt "" = none := by decide

theorem validate_over (cspRO : Bool) (rid cl : String) (limit : Nat) (n : Int)
    (hpy : pyInt cl = some n) (hlt : (limit : Int) < n) :
    validatePayloadTooLarge cspRO rid (some cl) limit =
      some (createRequestTooLargeResponse cspRO rid) := by
  have hne : ¬ (cl = "") := by
    intro he
    rw [he, pyInt_empty] at hpy
    exact Option.noConfusion hpy
  unfold validatePayloadTooLarge
  dsimp only
  rw [if_neg hne, hpy]
  dsimp only
  rw [if_pos hlt]

theorem validate_no_decision (cspRO : Bool) (rid : String) (limit : Nat) :
    (∀ (cl : Option String), (cl = none ∨ cl = some "") →
      validatePayloadTooLarge cspRO rid cl limit = none) ∧
    (∀ (cl : String), pyInt cl = none →
      validatePayloadTooLarge cspRO rid (some cl) limit = none) ∧
    (∀ (cl : String) (n : Int), pyInt cl = some n → n ≤ (limit : Int) →
      validatePayloadTooLarge cspRO rid (some cl) limit = none) := by
  refine ⟨?_, ?_, ?_⟩
  · intro cl h
    rcases h with h | h <;> rw [h] <;> rfl
  · intro cl hpy
    unfold validatePayloadTooLarge
    dsimp only
    by_cases hcl : cl = ""
    · rw [if_pos hcl]
    · rw [if_neg hcl, hpy]
  · intro cl n hpy hle
    unfold validatePayloadTooLarge
    dsimp only
    by_cases hcl : cl = ""
    · rw [if_pos hcl]
    · rw [if_neg hcl, hpy]
      dsimp only
      rw [if_neg (not_lt.mpr hle)]

theorem middleware_precheck_rejects (cspRO : Bool) (limit : Nat) (rid : String)
    (req : RequestModel) (lr : Except Unit (Bool × Nat)) (down : Response)
    (cl : String) (n : Int)
    (hm : req.method = "POST" ∨ req.method = "PUT" ∨ req.method = "PATCH")
    (hcl : req.contentLength = some cl)
    (hpy : pyInt cl = some n) (hlt : (limit : Int) < n) :
    securityMiddleware cspRO limit rid req lr down =
      (createRequestTooLargeResponse cspRO rid, false) := by
  have hbg : bodyGate cspRO limit rid req = some (createRequestTooLargeResponse cspRO rid) := by
    unfold bodyGate
    rw [if_pos hm, hcl, validate_over cspRO rid cl limit n hpy hlt]
  unfold securityMiddleware
  rw [hbg]

/-- C5: for POST/PUT/PATCH requests a `Content-Length` that parses above
the configured limit is rejected with the 413 response before any body
bytes are consulted (the conclusion does not depend on the request's
stream or buffered body); a missing, empty, non-numeric or within-limit
`Content-Length` produces no precheck decision, so the request falls
through to the streaming check. -/
theorem content_length_precheck_spec :
    (∀ (cspRO : Bool) (rid cl : String) (limit : Nat) (n : Int),
      pyInt cl = some n → (limit : Int) < n →
      validatePayloadTooLarge cspRO rid (some cl) limit =
        some (createRequestTooLargeResponse cspRO rid)) ∧
    (∀ (cspRO : Bool) (rid : String) (limit : Nat) (cl : Option String),
      (cl = none ∨ cl = some "") → validatePayloadTooLarge cspRO rid cl limit = none) ∧
    (∀ (cspRO : Bool) (rid cl : String) (limit : Nat),
      pyInt cl = none → validatePayloadTooLarge cspRO rid (some cl) limit = none) ∧
    (∀ (cspRO : Bool) (rid cl : String) (limit : Nat) (n : Int),
      pyInt cl = some n → n ≤ (limit : Int) →
      validatePayloadTooLarge cspRO rid (some cl) limit = none) ∧
    (∀ (cspRO : Bool) (limit : Nat) (rid : String) (req : RequestModel)
        (lr : Except Unit (Bool × Nat)) (down : Response) (cl : String) (n : Int),
      (req.method = "POST" ∨ req.method = "PUT" ∨ req.method = "PATCH") →
      req.contentLength = some cl → pyInt cl = some n → (limit : Int) < n →
      securityMiddleware cspRO limit rid req lr down =
        (createRequestTooLargeResponse cspRO rid, false)) :=
  ⟨validate_over,
   fun cspRO rid limit cl h => (validate_no_decision cspRO rid limit).1 cl h,
   fun cspRO rid cl limit h => (validate_no_decision cspRO rid limit).2.1 cl h,
   fun cspRO rid cl limit n h1 h2 => (validate_no_decision cspRO rid limit).2.2 cl n h1 h2,
   middleware_precheck_rejects⟩

/-- Witness for C5 at a declared length of 70000 against a 65536 limit,
plus the no-decision cases for missing and non-numeric headers. -/
theorem content_length_precheck_spec_witness :
    validatePayloadTooLarge false "r1" (some "70000") 65536 =
      some (createRequestTooLargeResponse false "r1") ∧
    validatePayloadTooLarge false "r1" none 65536 = none ∧
    validatePayloadTooLarge false "r1" (some "abc") 65536 = none ∧
    validatePayloadTooLarge false "r1" (some "100") 65536 = none ∧
    securityMiddleware false 65536 "r1"
      ⟨"POST", "/x", some "70000", none, [StreamItem.chunk 70000]⟩ (.ok (true, 0)) downstreamOk =
      (createRequestTooLargeResponse false "r1", false) :=
  ⟨content_length_precheck_spec.1 false "r1" "70000" 65536 70000 (by decide) (by decide),
   content_length_precheck_spec.2.1 false "r1" 65536 none (Or.inl rfl),
   content_length_precheck_spec.2.2.1 false "r1" "abc" 65536 (by decide),
   content_length_precheck_spec.2.2.2.1 false "r1" "100" 65536 100 (by decide) (by decide),
   content_length_precheck_spec.2.2.2.2 false 65536 "r1"
     ⟨"POST", "/x", some "70000", none, [StreamItem.chunk 70000]⟩ (.ok (true, 0)) downstreamOk
     "70000" 70000 (Or.inl rfl) rfl (by decide) (by decide)⟩

/-! ### C6: a limiter fault is fail-closed -/

/-- C6: when the rate limiter's `check` raises while evaluating a scoped,
non-OPTIONS request that passed the body phase, the middleware returns the
503 `rate_limiter_unavailable` response and never dispatches downstream. -/
theorem limiter_fault_fail_closed (cspRO : Bool) (limit : Nat) (rid : String)
    (req : RequestModel) (down : Response) (scope : String)
    (hbg : bodyGate cspRO limit rid req = none)
    (hsc : resolveRateLimitScope req.path = some scope)
    (hopt : ¬ req.method = "OPTIONS") :
    securityMiddleware cspRO limit rid req (.error ()) down =
      (applyResponseSecurityHeaders cspRO rid
        (errorResponse 503 "rate_limiter_unavailable" []), false) ∧
    (securityMiddleware cspRO limit rid req (.error ()) down).1.status = 503 ∧
    (securityMiddleware cspRO limit rid req (.error ()) down).1.code = "rate_limiter_unavailable" ∧
    (securityMiddleware cspRO limit rid req (.error ()) down).2 = false := by
  have heq : securityMiddleware cspRO limit rid req (.error ()) down =
      (applyResponseSecurityHeaders cspRO rid
        (errorResponse 503 "rate_limiter_unavailable" []), false) := by
    unfold securityMiddleware
    rw [hbg]
    dsimp only
    rw [hsc]
    dsimp only
    rw [if_neg hopt]
  refine ⟨heq, ?_, ?_, ?_⟩
  · rw [heq]
    exact applyHeaders_status _ _ _
  · rw [heq]
    exact applyHeaders_code _ _ _
  · rw [heq]

/-- Witness for C6 on a concrete scoped GET-like request. -/
theorem limiter_fault_fail_closed_witness :
    securityMiddleware true 65536 "r2"
      ⟨"POST", "/generate_response", none, none, []⟩ (.error ()) downstreamOk =
      (applyResponseSecurityHeaders true "r2"
        (errorResponse 503 "rate_limiter_unavailable" []), false) ∧
    (securityMiddleware true 65536 "r2"
      ⟨"POST", "/generate_response", none, none, []⟩ (.error ()) downstreamOk).1.status = 503 ∧
    (securityMiddleware true 65536 "r2"
      ⟨"POST", "/generate_response", none, none, []⟩ (.error ()) downstreamOk).1.code =
      "rate_limiter_unavailable" ∧
    (securityMiddleware true 65536 "r2"
      ⟨"POST", "/generate_response", none, none, []⟩ (.error ()) downstreamOk).2 = false :=
  limiter_fault_fail_closed true 65536 "r2"
    ⟨"POST", "/generate_response", none, none, []⟩ downstreamOk "generate_response"
    (by decide) (by decide) (by decide)

/-! ### C7: every middleware response carries the hardening headers -/

theorem getHeaderList_set_self (l : List (String × String)) (n v : String) :
    getHeaderList (setHeaderList l n v) n = some v := by
  induction l with
  | nil => simp [setHeaderList, getHeaderList]
  | cons p tl ih =>
    by_cases hp : p.1 = n
    · simp [setHeaderList, hp, getHeaderList]
    · simp [setHeaderList, hp, getHeaderList, ih]

theorem getHeaderList_set_ne (l : List (String × String)) (n v m : String)
    (hne : m ≠ n) :
    getHeaderList (setHeaderList l n v) m = getHeaderList l m := by
  have hnm : ¬ ((n : String) = m) := fun hh => hne hh.symm
  induction l with
  | nil => simp [setHeaderList, getHeaderList, hnm]
  | cons p tl ih =>
    by_cases hp : p.1 = n
    · have hp2 : ¬ (p.1 = m) := by rw [hp]; exact hnm
      simp [setHeaderList, hp, getHeaderList, hnm, hp2]
    · by_cases hm : p.1 = m
      · simp [setHeaderList, hp, getHeaderList, hm, hne]
      · simp [setHeaderList, hp, getHeaderList, hm, ih]

theorem getHeaderList_single_ne (n v m : String) (h : ¬ n = m) :
    getHeaderList [(n, v)] m = none := by
  simp [getHeaderList, h]

theorem getHeader_setHeader_self (r : Response) (n v : String) :
    getHeader (setHeader r n v) n = some v :=
  getHeaderList_set_self r.headers n v

theorem getHeader_setHeader_ne (r : Response) (n v m : String) (hne : m ≠ n) :
    getHeader (setHeader r n v) m = getHeader r m :=
  getHeaderList_set_ne r.headers n v m hne

theorem applyHeaders_spec (cspRO : Bool) (rid : String) (r : Response)
    (h1 : getHeader r "Content-Security-Policy" = none)
    (h2 : getHeader r "Content-Security-Policy-Report-Only" = none) :
    (getHeader (applyResponseSecurityHeaders cspRO rid r) "X-Request-ID" = some rid ∧
     getHeader (applyResponseSecurityHeaders cspRO rid r) "X-Content-Type-Options" = some "nosniff" ∧
     getHeader (applyResponseSecurityHeaders cspRO rid r) "X-Frame-Options" = some "DENY" ∧
     getHeader (applyResponseSecurityHeaders cspRO rid r) "Referrer-Policy" = some "no-referrer") ∧
    (cspRO = true →
      getHeader (applyResponseSecurityHeaders cspRO rid r) "Content-Security-Policy-Report-Only" =
        some cspDirectives ∧
      getHeader (applyResponseSecurityHeaders cspRO rid r) "Content-Security-Policy" = none) ∧
    (cspRO = false →
      getHeader (applyResponseSecurityHeaders cspRO rid r) "Content-Security-Policy" =
        some cspDirectives ∧
      getHeader (applyResponseSecurityHeaders cspRO rid r) "Content-Security-Policy-Report-Only" =
        none) := by
  cases cspRO with
  | true =>
    unfold applyResponseSecurityHeaders
    dsimp only
    rw [if_pos rfl]
    refine ⟨⟨?_, ?_, ?_, ?_⟩, fun _ => ⟨?_, ?_⟩, fun hf => Bool.noConfusion hf⟩
    · rw [getHeader_setHeader_ne _ _ _ _ (by decide),
        getHeader_setHeader_ne _ _ _ _ (by decide),
        getHeader_setHeader_ne _ _ _ _ (by decide),
        getHeader_setHeader_ne _ _ _ _ (by decide),
        getHeader_setHeader_self]
    · rw [getHeader_setHeader_ne _ _ _ _ (by decide),
        getHeader_setHeader_ne _ _ _ _ (by decide),
        getHeader_setHeader_ne _ _ _ _ (by decide),
        getHeader_setHeader_self]
    · rw [getHeader_setHeader_ne _ _ _ _ (by decide),
        getHeader_setHeader_ne _ _ _ _ (by decide),
        getHeader_setHeader_self]
    · rw [getHeader_setHeader_ne _ _ _ _ (by decide),
        getHeader_setHeader_self]
    · rw [getHeader_setHeader_self]
    · rw [getHeader_setHeader_ne _ _ _ _ (by decide),
        getHeader_setHeader_ne _ _ _ _ (by decide),
        getHeader_setHeader_ne _ _ _ _ (by decide),
        getHeader_setHeader_ne _ _ _ _ (by decide),
        getHeader_setHeader_ne _ _ _ _ (by decide)]
      exact h1
  | false =>
    unfold applyResponseSecurityHeaders
    dsimp only
    rw [if_neg (by decide)]
    refine ⟨⟨?_, ?_, ?_, ?_⟩, fun hf => Bool.noConfusion hf, fun _ => ⟨?_, ?_⟩⟩
    · rw [getHeader_setHeader_ne _ _ _ _ (by decide),
        getHeader_setHeader_ne _ _ _ _ (by decide),
        getHeader_setHeader_ne _ _ _ _ (by decide),
        getHeader_setHeader_ne _ _ _ _ (by decide),
        getHeader_setHeader_self]
    · rw [getHeader_setHeader_ne _ _ _ _ (by decide),
        getHeader_setHeader_ne _ _ _ _ (by decide),
        getHeader_setHeader_ne _ _ _ _ (by decide),
        getHeader_setHeader_self]
    · rw [getHeader_setHeader_ne _ _ _ _ (by decide),
        getHeader_setHeader_ne _ _ _ _ (by decide),
        getHeader_setHeader_self]
    · rw [getHeader_setHeader_ne _ _ _ _ (by decide),
        getHeader_setHeader_self]
    · rw [getHeader_setHeader_self]
    · rw [getHeader_setHeader_ne _ _ _ _ (by decide),
        getHeader_setHeader_ne _ _ _ _ (by decide),
        getHeader_setHeader_ne _ _ _ _ (by decide),
        getHeader_setHeader_ne _ _ _ _ (by decide),
        getHeader_setHeader_ne _ _ _ _ (by decide)]
      exact h2

theorem validate_some_is_413 (cspRO : Bool) (rid : String) (cl : Option String)
    (limit : Nat) (resp : Response)
    (h : validatePayloadTooLarge cspRO rid cl limit = some resp) :
    resp = createRequestTooLargeResponse cspRO rid := by
  unfold validatePayloadTooLarge at h
  cases cl with
  | none => exact Option.noConfusion h
  | some s =>
    dsimp only at h
    by_cases hs : s = ""
    · rw [if_pos hs] at h
      exact Option.noConfusion h
    · rw [if_neg hs] at h
      cases hpy : pyInt s with
      | none => rw [hpy] at h; exact Option.noConfusion h
      | some n =>
        rw [hpy] at h
        dsimp only at h
        by_cases hlt : (limit : Int) < n
        · rw [if_pos hlt] at h
          exact (Option.some.injEq _ _ ▸ h).symm
        · rw [if_neg hlt] at h
          exact Option.noConfusion h

theorem bodyGate_some_is_413 (cspRO : Bool) (limit : Nat) (rid : String)
    (req : RequestModel) (resp : Response)
    (h : bodyGate cspRO limit rid req = some resp) :
    resp = createRequestTooLargeResponse cspRO rid := by
  unfold bodyGate at h
  by_cases hm : req.method = "POST" ∨ req.method = "PUT" ∨ req.method = "PATCH"
  · rw [if_pos hm] at h
    cases hv : validatePayloadTooLarge cspRO rid req.contentLength limit with
    | some r2 =>
      rw [hv] at h
      dsimp only at h
      have hr2 := validate_some_is_413 cspRO rid req.contentLength limit r2 hv
      rw [← hr2]
      exact (Option.some.injEq _ _ ▸ h).symm
    | none =>
      rw [hv] at h
      dsimp only at h
      cases hr : readRequestBodyWithLimit req.existingBody req.stream limit with
      | ok t => rw [hr] at h; exact Option.noConfusion h
      | tooLarge n =>
        rw [hr] at h
        exact (Option.some.injEq _ _ ▸ h).symm
      | readErr =>
        rw [hr] at h
        exact (Option.some.injEq _ _ ▸ h).symm
  · rw [if_neg hm] at h
    exact Option.noConfusion h

theorem middleware_response_is_applied (cspRO : Bool) (limit : Nat) (rid : String)
    (req : RequestModel) (lr : Except Unit (Bool × Nat)) (down : Response)
    (hd1 : getHeader down "Content-Security-Policy" = none)
    (hd2 : getHeader down "Content-Security-Policy-Report-Only" = none) :
    ∃ base : Response,
      (securityMiddleware cspRO limit rid req lr down).1 =
        applyResponseSecurityHeaders cspRO rid base ∧
      getHeader base "Content-Security-Policy" = none ∧
      getHeader base "Content-Security-Policy-Report-Only" = none := by
  unfold securityMiddleware
  cases hbg : bodyGate cspRO limit rid req with
  | some resp =>
    refine ⟨errorResponse 413 "payload_too_large" [], ?_, rfl, rfl⟩
    dsimp only
    rw [bodyGate_some_is_413 cspRO limit rid req resp hbg]
    rfl
  | none =>
    dsimp only
    cases hsc : resolveRateLimitScope req.path with
    | none => exact ⟨down, rfl, hd1, hd2⟩
    | some sc =>
      dsimp only
      by_cases hopt : req.method = "OPTIONS"
      · rw [if_pos hopt]
        exact ⟨down, rfl, hd1, hd2⟩
      · rw [if_neg hopt]
        cases lr with
        | error u =>
          exact ⟨errorResponse 503 "rate_limiter_unavailable" [], rfl, rfl, rfl⟩
        | ok res =>
          dsimp only
          by_cases hal : res.1 = true
          · rw [if_pos hal]
            exact ⟨down, rfl, hd1, hd2⟩
          · rw [if_neg hal]
            refine ⟨errorResponse 429 "rate_limited" [("Retry-After", toString res.2)],
              rfl, ?_, ?_⟩
            · exact getHeaderList_single_ne "Retry-After" (toString res.2)
                "Content-Security-Policy" (by decide)
            · exact getHeaderList_single_ne "Retry-After" (toString res.2)
                "Content-Security-Policy-Report-Only" (by decide)

/-- C7: every response the middleware returns — 413, 429, 503 or a
dispatched downstream response (which carries no CSP headers of its own) —
bears the request's non-empty `X-Request-ID`, the three fixed hardening
headers, and exactly one of `Content-Security-Policy` /
`Content-Security-Policy-Report-Only` (selected by the report-only flag)
with the locked-down directive set. -/
theorem middleware_always_sets_security_headers (cspRO : Bool) (limit : Nat)
    (rid : String) (req : RequestModel) (lr : Except Unit (Bool × Nat)) (down : Response)
    (hrid : rid ≠ "")
    (hd1 : getHeader down "Content-Security-Policy" = none)
    (hd2 : getHeader down "Content-Security-Policy-Report-Only" = none) :
    (getHeader (securityMiddleware cspRO limit rid req lr down).1 "X-Request-ID" = some rid ∧
     rid ≠ "" ∧
     getHeader (securityMiddleware cspRO limit rid req lr down).1 "X-Content-Type-Options" =
       some "nosniff" ∧
     getHeader (securityMiddleware cspRO limit rid req lr down).1 "X-Frame-Options" =
       some "DENY" ∧
     getHeader (securityMiddleware cspRO limit rid req lr down).1 "Referrer-Policy" =
       some "no-referrer") ∧
    (cspRO = true →
      getHeader (securityMiddleware cspRO limit rid req lr down).1
        "Content-Security-Policy-Report-Only" = some cspDirectives ∧
      getHeader (securityMiddleware cspRO limit rid req lr down).1
        "Content-Security-Policy" = none) ∧
    (cspRO = false →
      getHeader (securityMiddleware cspRO limit rid req lr down).1
        "Content-Security-Policy" = some cspDirectives ∧
      getHeader (securityMiddleware cspRO limit rid req lr down).1
        "Content-Security-Policy-Report-Only" = none) := by
  obtain ⟨base, heq, hb1, hb2⟩ :=
    middleware_response_is_applied cspRO limit rid req lr down hd1 hd2
  rw [heq]
  have hs := applyHeaders_spec cspRO rid base hb1 hb2
  exact ⟨⟨hs.1.1, hrid, hs.1.2.1, hs.1.2.2.1, hs.1.2.2.2⟩, hs.2.1, hs.2.2⟩

/-- Witness for C7: a rate-limited (429) response in report-only mode
carries all the hardening headers and only the report-only CSP header. -/
theorem middleware_always_sets_security_headers_witness :
    (getHeader (securityMiddleware true 65536 "r3"
        ⟨"POST", "/generate_response", none, none, []⟩ (.ok (false, 7)) downstreamOk).1
        "X-Request-ID" = some "r3" ∧
     "r3" ≠ "" ∧
     getHeader (securityMiddleware true 65536 "r3"
        ⟨"POST", "/generate_response", none, none, []⟩ (.ok (false, 7)) downstreamOk).1
        "X-Content-Type-Options" = some "nosniff" ∧
     getHeader (securityMiddleware true 65536 "r3"
        ⟨"POST", "/generate_response", none, none, []⟩ (.ok (false, 7)) downstreamOk).1
        "X-Frame-Options" = some "DENY" ∧
     getHeader (securityMiddleware true 65536 "r3"
        ⟨"POST", "/generate_response", none, none, []⟩ (.ok (false, 7)) downstreamOk).1
        "Referrer-Policy" = some "no-referrer") ∧
    (true = true →
      getHeader (securityMiddleware true 65536 "r3"
        ⟨"POST", "/generate_response", none, none, []⟩ (.ok (false, 7)) downstreamOk).1
        "Content-Security-Policy-Report-Only" = some cspDirectives ∧
      getHeader (securityMiddleware true 65536 "r3"
        ⟨"POST", "/generate_response", none, none, []⟩ (.ok (false, 7)) downstreamOk).1
        "Content-Security-Policy" = none) ∧
    (true = false →
      getHeader (securityMiddleware true 65536 "r3"
        ⟨"POST", "/generate_response", none, none, []⟩ (.ok (false, 7)) downstreamOk).1
        "Content-Security-Policy" = some cspDirectives ∧
      getHeader (securityMiddleware true 65536 "r3"
        ⟨"POST", "/generate_response", none, none, []⟩ (.ok (false, 7)) downstreamOk).1
        "Content-Security-Policy-Report-Only" = none) :=
  middleware_always_sets_security_headers true 65536 "r3"
    ⟨"POST", "/generate_response", none, none, []⟩ (.ok (false, 7)) downstreamOk
    (by decide) rfl rfl

/-! ### C8: `_parse_rules` -/

theorem unit_seconds_pos (u : String) (w : Nat)
    (h : LIMIT_UNIT_SECONDS u = some w) : 0 < w := by
  unfold LIMIT_UNIT_SECONDS at h
  by_cases h1 : u = "second"
  · rw [if_pos h1] at h; injection h with h2; omega
  · rw [if_neg h1] at h
    by_cases h2 : u = "minute"
    · rw [if_pos h2] at h; injection h with h3; omega
    · rw [if_neg h2] at h
      by_cases h3 : u = "hour"
      · rw [if_pos h3] at h; injection h with h4; omega
      · rw [if_neg h3] at h; exact Option.noConfusion h

theorem parseToken_ok_pos (t : String) (r : RateLimitRule) (h : parseToken t = .ok r) :
    0 < r.limit ∧ 0 < r.window_seconds := by
  unfold parseToken at h
  cases hsp : splitFirstSlash t.toList with
  | none => rw [hsp] at h; exact Except.noConfusion h
  | some p =>
    obtain ⟨lp, up⟩ := p
    rw [hsp] at h
    dsimp only at h
    cases hpy : pyInt (pyStrip (String.mk lp)) with
    | none => rw [hpy] at h; exact Except.noConfusion h
    | some limit =>
      rw [hpy] at h
      dsimp only at h
      cases hu : LIMIT_UNIT_SECONDS (rstripS (lowerString (pyStrip (String.mk up)))) with
      | none => rw [hu] at h; exact Except.noConfusion h
      | some w =>
        rw [hu] at h
        dsimp only at h
        by_cases hl : limit ≤ 0
        · rw [if_pos hl] at h; exact Except.noConfusion h
        · rw [if_neg hl] at h
          injection h with h1
          rw [← h1]
          constructor
          · show 0 < limit.toNat
            omega
          · exact unit_seconds_pos _ _ hu

theorem parseTokens_ok_pos :
    ∀ (ts : List String) (rules : List RateLimitRule), parseTokens ts = .ok rules →
      ∀ r ∈ rules, 0 < r.limit ∧ 0 < r.window_seconds := by
  intro ts
  induction ts with
  | nil =>
    intro rules h r hr
    simp only [parseTokens] at h
    injection h with h1
    rw [← h1] at hr
    exact absurd hr (List.not_mem_nil r)
  | cons t ts ih =>
    intro rules h r hr
    simp only [parseTokens] at h
    cases hpt : parseToken t with
    | error e => rw [hpt] at h; exact Except.noConfusion h
    | ok r0 =>
      rw [hpt] at h
      dsimp only at h
      cases hts : parseTokens ts with
      | error e => rw [hts] at h; exact Except.noConfusion h
      | ok rs =>
        rw [hts] at h
        injection h with h1
        rw [← h1] at hr
        rcases List.mem_cons.mp hr with hr0 | hrs
        · rw [hr0]; exact parseToken_ok_pos t r0 hpt
        · exact ih rs hts r hrs

theorem parseTokens_ok_nil :
    ∀ (ts : List String), parseTokens ts = .ok [] → ts = [] := by
  intro ts h
  cases ts with
  | nil => rfl
  | cons t ts =>
    simp only [parseTokens] at h
    cases hpt : parseToken t with
    | error e => rw [hpt] at h; exact Except.noConfusion h
    | ok r0 =>
      rw [hpt] at h
      dsimp only at h
      cases hts : parseTokens ts with
      | error e => rw [hts] at h; exact Except.noConfusion h
      | ok rs =>
        rw [hts] at h
        injection h with h1
        exact List.noConfusion h1

theorem parseTokens_error_iff :
    ∀ (ts : List String), (∃ e, parseTokens ts = .error e) ↔
      ∃ t ∈ ts, ∃ e, parseToken t = .error e := by
  intro ts
  induction ts with
  | nil =>
    constructor
    · intro ⟨e, he⟩
      exact Except.noConfusion he
    · intro ⟨t, ht, _⟩
      exact absurd ht (List.not_mem_nil t)
  | cons t ts ih =>
    constructor
    · intro ⟨e, he⟩
      simp only [parseTokens] at he
      cases hpt : parseToken t with
      | error e0 => exact ⟨t, List.mem_cons_self t ts, e0, hpt⟩
      | ok r0 =>
        rw [hpt] at he
        dsimp only at he
        cases hts : parseTokens ts with
        | error e1 =>
          obtain ⟨t1, ht1, he1⟩ := ih.mp ⟨e1, hts⟩
          exact ⟨t1, List.mem_cons_of_mem t ht1, he1⟩
        | ok rs =>
          rw [hts] at he
          exact Except.noConfusion he
    · intro ⟨t1, ht1, e1, he1⟩
      simp only [parseTokens]
      rcases List.mem_cons.mp ht1 with h1 | h1
      · rw [h1] at he1
        rw [he1]
        exact ⟨e1, rfl⟩
      · cases hpt : parseToken t with
        | error e0 => exact ⟨e0, rfl⟩
        | ok r0 =>
          dsimp only
          obtain ⟨e2, he2⟩ := ih.mpr ⟨t1, h1, e1, he1⟩
          rw [he2]
          exact ⟨e2, rfl⟩

theorem parseRules_error_iff (raw : String) :
    (∃ e, parseRules raw = .error e) ↔
      (strippedTokens raw = [] ∨
        ∃ t ∈ strippedTokens raw, ∃ e, parseToken t = .error e) := by
  unfold parseRules
  cases hts : parseTokens (strippedTokens raw) with
  | error e =>
    constructor
    · intro _
      exact Or.inr ((parseTokens_error_iff _).mp ⟨e, hts⟩)
    · intro _
      exact ⟨e, rfl⟩
  | ok rs =>
    cases rs with
    | nil =>
      constructor
      · intro _
        exact Or.inl (parseTokens_ok_nil _ hts)
      · intro _
        exact ⟨NO_RULES_MSG, rfl⟩
    | cons a l =>
      constructor
      · intro ⟨e, he⟩
        exact Except.noConfusion he
      · intro h
        rcases h with h | h
        · rw [h] at hts
          simp only [parseTokens] at hts
          injection hts with h1
          exact List.noConfusion h1
        · obtain ⟨e, he⟩ := (parseTokens_error_iff _).mpr h
          rw [he] at hts
          exact Except.noConfusion hts

theorem rstripS_append_s (u : String) : rstripS (u ++ "s") = rstripS u := by
  unfold rstripS
  have h1 : (u ++ "s").toList = u.toList ++ [Char.ofNat 115] := by
    show (u ++ "s").data = u.data ++ [Char.ofNat 115]
    rw [String.data_append]
  rw [h1, List.reverse_append]
  have h2 : ([Char.ofNat 115] : List Char).reverse ++ u.toList.reverse =
      Char.ofNat 115 :: u.toList.reverse := by
    simp
  rw [h2]
  rfl

theorem parseRules_ok_spec (raw : String) (rules : List RateLimitRule)
    (h : parseRules raw = .ok rules) :
    rules ≠ [] ∧ ∀ r ∈ rules, 0 < r.limit ∧ 0 < r.window_seconds := by
  unfold parseRules at h
  cases hts : parseTokens (strippedTokens raw) with
  | error e => rw [hts] at h; exact Except.noConfusion h
  | ok rs =>
    rw [hts] at h
    cases rs with
    | nil => exact Except.noConfusion h
    | cons a l =>
      dsimp only at h
      injection h with h1
      rw [← h1]
      exact ⟨List.cons_ne_nil a l, parseTokens_ok_pos _ _ hts⟩

/-- C8: a successful `_parse_rules` yields a non-empty rule sequence whose
rules all have positive limit and positive window; parsing fails (a hard
error raised at startup, never a per-request fallback) exactly when no
token remains after stripping or some token fails to parse (malformed,
unknown unit, or non-positive count); a trailing `s` on a unit never
changes its meaning; and the units `second`/`minute`/`hour` map to windows
of 1, 60 and 3600 seconds. -/
theorem parse_rules_spec :
    (∀ (raw : String) (rules : List RateLimitRule), parseRules raw = .ok rules →
      rules ≠ [] ∧ ∀ r ∈ rules, 0 < r.limit ∧ 0 < r.window_seconds) ∧
    (∀ raw : String, (∃ e, parseRules raw = .error e) ↔
      (strippedTokens raw = [] ∨
        ∃ t ∈ strippedTokens raw, ∃ e, parseToken t = .error e)) ∧
    (∀ u : String, rstripS (u ++ "s") = rstripS u) ∧
    (LIMIT_UNIT_SECONDS "second" = some 1 ∧ LIMIT_UNIT_SECONDS "minute" = some 60 ∧
      LIMIT_UNIT_SECONDS "hour" = some 3600) ∧
    parseRules "1/second,2/minutes,3/hour,4/seconds,5/minute,6/hours" =
      .ok [⟨1, 1⟩, ⟨2, 60⟩, ⟨3, 3600⟩, ⟨4, 1⟩, ⟨5, 60⟩, ⟨6, 3600⟩] :=
  ⟨parseRules_ok_spec, parseRules_error_iff, rstripS_append_s,
   ⟨rfl, rfl, rfl⟩, rfl⟩

/-- Witness for C8: the default generate policy parses into positive
rules, and the empty string and a zero-limit token are rejected. -/
theorem parse_rules_spec_witness :
    ([⟨5, 60⟩, ⟨30, 3600⟩] ≠ ([] : List RateLimitRule) ∧
      ∀ r ∈ ([⟨5, 60⟩, ⟨30, 3600⟩] : List RateLimitRule),
        0 < r.limit ∧ 0 < r.window_seconds) ∧
    ((∃ e, parseRules "" = .error e) ↔
      (strippedTokens "" = [] ∨
        ∃ t ∈ strippedTokens "", ∃ e, parseToken t = .error e)) ∧
    rstripS ("minute" ++ "s") = rstripS "minute" :=
  ⟨parse_rules_spec.1 "5/minute,30/hour" [⟨5, 60⟩, ⟨30, 3600⟩] rfl,
   parse_rules_spec.2.1 "",
   parse_rules_spec.2.2.1 "minute"⟩

end MirrorView
